import Mathlib

/-!
Verification development for the `ha_live_config` profile configuration store.

The store (ConfigStore / ProfileService of the design document) holds a single
persisted document with one API credential and an ordered list of named
assistant profiles, and exposes the operations get-config, set-key,
upsert-profile, delete-profile and check-name-availability.  The component
itself is not part of the checked-in sources (only its test suite is), so the
definitions below are modelled from the specification, cross-checked against
the behaviours the test suite pins down (error messages, the `AIza` key
prefix check, case-insensitive name comparison, idempotent delete, ...).

External effects are made explicit: the persistence adapter is the `saved`
field of `StoreState`, the clock is a `now : String` parameter, the identity
resolver result is a `mby : Option String` parameter, the UUID generator is a
`freshId : String` parameter, and warning-level log signals are `Bool`
results.
-/

namespace HaLiveConfig

/-- Modelled from the spec: the current schema version of the persisted
document.  The tests and the spec pin it at 1. -/
def CURRENT_SCHEMA_VERSION : Nat := 1

/-- Modelled from the spec: an assistant profile.  The free-form fields the
store treats as opaque are represented by the two named ones exercised by the
tests (`system_prompt`, `personality`); `lastModified` and `modifiedBy` are
stamped by the store, never by the caller. -/
structure Profile where
  id : String
  name : String
  systemPrompt : Option String := none
  personality : Option String := none
  lastModified : Option String := none
  modifiedBy : Option String := none
  deriving DecidableEq, Repr

/-- Modelled from the spec: the single persisted configuration document. -/
structure ConfigDocument where
  schemaVersion : Nat
  apiKey : Option String
  profiles : List Profile
  deriving DecidableEq, Repr

/-- Modelled from the spec: the candidate object a caller passes to
upsert-profile — optional `id`, optional (possibly missing) `name`, and the
optional free-form fields. -/
structure ProfileInput where
  id : Option String := none
  name : Option String := none
  systemPrompt : Option String := none
  personality : Option String := none
  deriving DecidableEq, Repr

/-- Modelled from the spec: the error taxonomy of the upsert operation
(`ValidationError` for a missing name, `ConflictError` for a name-uniqueness
violation). -/
inductive UpsertError where
  | validationError (msg : String)
  | conflictError (msg : String)
  deriving DecidableEq, Repr

/-- Modelled from the spec: case folding used for the name-uniqueness rule
(lower-casing, written over the character list so that it computes by
structural recursion). -/
def caseFold (s : String) : String := String.mk (s.data.map Char.toLower)

/-- A string is blank when every character is whitespace (equivalently, its
trimmed form is empty). -/
def isBlank (s : String) : Bool := s.data.all Char.isWhitespace

/-- A single quote character, used to build the conflict error message. -/
def squoteChar : Char := Char.ofNat 39

/-- Wraps a string in single quotes, as in the conflict error message. -/
def squote (s : String) : String :=
  String.singleton squoteChar ++ s ++ String.singleton squoteChar

/-- Modelled from the spec: the default document installed when persistence
has no prior data. -/
def defaultDocument : ConfigDocument :=
  { schemaVersion := CURRENT_SCHEMA_VERSION, apiKey := none, profiles := [] }

/-- Modelled from the spec (key algorithm, name-conflict resolution): case-fold
the candidate name and scan the existing profiles; a match on an id different
from `candId` (or any match when `candId` is absent) is a conflict.  The same
scan, with `candId` as the excluded id, serves the availability check. -/
def nameConflict (profiles : List Profile) (candId : Option String)
    (name : String) : Bool :=
  profiles.any (fun p => caseFold p.name == caseFold name && candId != some p.id)

/-- Modelled from the spec: a missing or blank candidate name. -/
def nameBlank : Option String → Bool
  | none => true
  | some n => isBlank n

/-- Modelled from the spec: a finalized profile built from a candidate on
creation — the free-form fields are taken from the candidate, `lastModified`
is stamped with the clock value, `modifiedBy` with the resolved identity. -/
def newProfile (id : String) (cand : ProfileInput) (name now : String)
    (mby : Option String) : Profile :=
  { id := id, name := name, systemPrompt := cand.systemPrompt,
    personality := cand.personality, lastModified := some now, modifiedBy := mby }

/-- Modelled from the spec: update-in-place merge — the id is kept, the fields
supplied by the caller replace the stored ones, fields the caller omitted are
kept, and the store stamps `lastModified` and `modifiedBy`. -/
def mergeProfile (old : Profile) (cand : ProfileInput) (name now : String)
    (mby : Option String) : Profile :=
  { id := old.id
    name := name
    systemPrompt := match cand.systemPrompt with
      | some v => some v
      | none => old.systemPrompt
    personality := match cand.personality with
      | some v => some v
      | none => old.personality
    lastModified := some now
    modifiedBy := mby }

/-- Modelled from the spec: upsert-profile.  Rejects a missing/blank name with
`ValidationError`, rejects a case-folded name match on a different id with
`ConflictError`, otherwise updates the profile with the candidate's id in
place when one exists, and appends a finalized new profile (under the
candidate's id, or under `freshId` — the externally generated UUID — when the
candidate has none).  Returns the new document and the finalized profile. -/
def upsertProfile (doc : ConfigDocument) (cand : ProfileInput) (now : String)
    (mby : Option String) (freshId : String) :
    Except UpsertError (ConfigDocument × Profile) :=
  match cand.name with
  | none => .error (.validationError "Profile must have a name")
  | some n =>
    if isBlank n then
      .error (.validationError "Profile must have a name")
    else if nameConflict doc.profiles cand.id n then
      .error (.conflictError ("A profile named " ++ squote n ++ " already exists"))
    else
      match cand.id with
      | some i =>
        match doc.profiles.find? (fun p => p.id == i) with
        | some old =>
          let fin := mergeProfile old cand n now mby
          .ok ({ doc with
                  profiles := doc.profiles.map (fun p => if p.id == i then fin else p) },
               fin)
        | none =>
          let fin := newProfile i cand n now mby
          .ok ({ doc with profiles := doc.profiles ++ [fin] }, fin)
      | none =>
        let fin := newProfile freshId cand n now mby
        .ok ({ doc with profiles := doc.profiles ++ [fin] }, fin)

/-- Modelled from the spec: delete-profile removes the profile with the
matching id if present; returns whether a removal occurred. -/
def deleteProfile (doc : ConfigDocument) (id : String) : ConfigDocument × Bool :=
  ({ doc with profiles := doc.profiles.filter (fun p => p.id != id) },
   doc.profiles.any (fun p => p.id == id))

/-- Modelled from the spec and the tests: the expected leading characters of a
provider API key. -/
def expectedKeyStart : String := "AIza"

/-- Modelled from the spec: a non-empty key matches the expected provider-key
pattern when it starts with `AIza` (written over the character lists so that
it computes by structural recursion). -/
def keyLooksValid (key : String) : Bool :=
  expectedKeyStart.data.isPrefixOf key.data

/-- Modelled from the spec: set-key replaces `apiKey`, normalizing the empty
string to `none`; the returned flag is the warning signal emitted for a
non-empty key that does not match the expected pattern. -/
def setApiKey (doc : ConfigDocument) (key : String) : ConfigDocument × Bool :=
  if key == "" then ({ doc with apiKey := none }, false)
  else ({ doc with apiKey := some key }, !keyLooksValid key)

/-- Modelled from the spec: check-name-availability — the name is available
exactly when the conflict scan, excluding `excludeId`, finds no match.  A pure
read: it takes the document and returns only the flag. -/
def checkProfileName (doc : ConfigDocument) (name : String)
    (excludeId : Option String) : Bool :=
  !(nameConflict doc.profiles excludeId name)

/-- Modelled from the spec: the store state — the in-memory document plus the
persistence adapter's current blob (`none` when persistence holds no data). -/
structure StoreState where
  doc : ConfigDocument
  saved : Option ConfigDocument
  deriving DecidableEq, Repr

/-- Modelled from the spec: a full-document persist of the in-memory state. -/
def persist (s : StoreState) : StoreState := { s with saved := some s.doc }

/-- Modelled from the spec: set-key at the store level — mutate, then persist
synchronously before returning; the flag is the warning signal. -/
def storeSetApiKey (s : StoreState) (key : String) : StoreState × Bool :=
  let r := setApiKey s.doc key
  (persist { s with doc := r.1 }, r.2)

/-- Modelled from the spec: upsert-profile at the store level — on success
mutate and persist before returning; on a validation or conflict error the
state (document and persisted blob) is left unchanged. -/
def storeUpsertProfile (s : StoreState) (cand : ProfileInput) (now : String)
    (mby : Option String) (freshId : String) :
    StoreState × Except UpsertError Profile :=
  match upsertProfile s.doc cand now mby freshId with
  | .error e => (s, .error e)
  | .ok (d, fin) => (persist { s with doc := d }, .ok fin)

/-- Modelled from the spec: delete-profile at the store level — persists only
when a removal occurred; the flag is the warning signal emitted when the id
was absent.  Never an error. -/
def storeDeleteProfile (s : StoreState) (id : String) : StoreState × Bool :=
  let r := deleteProfile s.doc id
  if r.2 then (persist { s with doc := r.1 }, false)
  else (s, true)

/-- Modelled from the spec: the forward migration chain applied on load.  At
version 1 the chain is empty, so upgrading an older document just stamps the
current schema version; there is no downgrade path. -/
def migrate (doc : ConfigDocument) : ConfigDocument :=
  if doc.schemaVersion < CURRENT_SCHEMA_VERSION then
    { doc with schemaVersion := CURRENT_SCHEMA_VERSION }
  else doc

/-- Whether a loaded blob carries a schema version older than current. -/
def needsMigration : Option ConfigDocument → Bool
  | none => false
  | some d => decide (d.schemaVersion < CURRENT_SCHEMA_VERSION)

/-- Whether a loaded blob carries a schema version at most the current one
(always true of blobs this store wrote; there is no downgrade path). -/
def versionOk : Option ConfigDocument → Bool
  | none => true
  | some d => decide (d.schemaVersion ≤ CURRENT_SCHEMA_VERSION)

/-- Modelled from the spec: initialization — load the blob; install the
default document when absent; apply the forward migrations and persist the
migrated form immediately when the loaded version is older than current. -/
def initStore : Option ConfigDocument → StoreState
  | none => { doc := defaultDocument, saved := none }
  | some d =>
    if d.schemaVersion < CURRENT_SCHEMA_VERSION then
      { doc := migrate d, saved := some (migrate d) }
    else
      { doc := d, saved := some d }

/-- A mutating operation of the service layer, with its external inputs
(clock value, resolved identity, generated UUID) made explicit. -/
inductive Op where
  | setKey (key : String)
  | upsert (cand : ProfileInput) (now : String) (mby : Option String) (freshId : String)
  | delete (id : String)
  deriving DecidableEq, Repr

/-- Applies one mutating operation to the store, discarding the response. -/
def applyOp (s : StoreState) : Op → StoreState
  | .setKey k => (storeSetApiKey s k).1
  | .upsert cand now mby fid => (storeUpsertProfile s cand now mby fid).1
  | .delete i => (storeDeleteProfile s i).1

/-- Applies a sequence of mutating operations in order. -/
def applyOps (ops : List Op) (s : StoreState) : StoreState := ops.foldl applyOp s

/-- The caller-visible configuration returned by get-config: the API key and
the profile list. -/
structure ConfigView where
  apiKey : Option String
  profiles : List Profile
  deriving DecidableEq, Repr

/-- Modelled from the spec: get-config — a read-only snapshot of the current
document, no side effects. -/
def getConfig (s : StoreState) : ConfigView :=
  { apiKey := s.doc.apiKey, profiles := s.doc.profiles }

/-- Modelled from the spec (round-trip property): the net effect of set-key on
the caller-visible configuration. -/
def netSetKey (c : ConfigView) (key : String) : ConfigView :=
  if key == "" then { c with apiKey := none } else { c with apiKey := some key }

/-- Modelled from the spec (round-trip property): the net effect of
upsert-profile on the caller-visible configuration — a rejected call has no
effect, an update rewrites the profile in place, a create appends. -/
def netUpsert (c : ConfigView) (cand : ProfileInput) (now : String)
    (mby : Option String) (freshId : String) : ConfigView :=
  match cand.name with
  | none => c
  | some n =>
    if isBlank n then c
    else if nameConflict c.profiles cand.id n then c
    else
      match cand.id with
      | some i =>
        match c.profiles.find? (fun p => p.id == i) with
        | some old =>
          { c with profiles := (c.profiles.map
              (fun p => if p.id == i then mergeProfile old cand n now mby else p)) }
        | none => { c with profiles := c.profiles ++ [newProfile i cand n now mby] }
      | none => { c with profiles := c.profiles ++ [newProfile freshId cand n now mby] }

/-- Modelled from the spec (round-trip property): the net effect of
delete-profile on the caller-visible configuration. -/
def netDelete (c : ConfigView) (id : String) : ConfigView :=
  { c with profiles := c.profiles.filter (fun p => p.id != id) }

/-- The net effect of one operation on the caller-visible configuration. -/
def netOp (c : ConfigView) : Op → ConfigView
  | .setKey k => netSetKey c k
  | .upsert cand now mby fid => netUpsert c cand now mby fid
  | .delete i => netDelete c i

/-- The net effect of a sequence of operations on the caller-visible
configuration. -/
def netEffect (ops : List Op) (c : ConfigView) : ConfigView := ops.foldl netOp c

theorem nameConflict_iff (ps : List Profile) (cid : Option String) (n : String) :
    nameConflict ps cid n = true ↔
      ∃ p ∈ ps, caseFold p.name = caseFold n ∧ cid ≠ some p.id := by
  simp [nameConflict, List.any_eq_true, Bool.and_eq_true, and_assoc]

theorem nameConflict_eq_false_iff (ps : List Profile) (cid : Option String) (n : String) :
    nameConflict ps cid n = false ↔
      ∀ p ∈ ps, caseFold p.name = caseFold n → cid = some p.id := by
  rw [← Bool.not_eq_true, nameConflict_iff]
  constructor
  · intro h p hp he
    by_contra hne
    exact h ⟨p, hp, he, hne⟩
  · rintro h ⟨p, hp, he, hne⟩
    exact hne (h p hp he)

/-- C1: upsertProfile with a present, non-blank name is rejected with the
conflict error naming the candidate exactly when some existing profile whose
id differs from the candidate's id has a case-folded-equal name; when no such
profile exists (in particular when the only matches carry the candidate's own
id) the operation succeeds. -/
theorem upsert_name_conflict_iff (doc : ConfigDocument) (cand : ProfileInput)
    (now : String) (mby : Option String) (freshId : String) (n : String)
    (hn : cand.name = some n) (hb : isBlank n = false) :
    (upsertProfile doc cand now mby freshId =
        .error (.conflictError ("A profile named " ++ squote n ++ " already exists")) ↔
      ∃ p ∈ doc.profiles, caseFold p.name = caseFold n ∧ cand.id ≠ some p.id) ∧
    ((∀ p ∈ doc.profiles, caseFold p.name = caseFold n → cand.id = some p.id) →
      ∃ r, upsertProfile doc cand now mby freshId = .ok r) := by
  constructor
  · rw [← nameConflict_iff doc.profiles cand.id n]
    by_cases hc : nameConflict doc.profiles cand.id n
    · simp [upsertProfile, hn, hb, hc]
    · simp only [upsertProfile, hn, hb, Bool.false_eq_true, if_false,
        hc, if_neg, ite_false]
      cases hid : cand.id with
      | none => simp [hc]
      | some i =>
        cases hf : doc.profiles.find? (fun p => p.id == i) with
        | none => simp [hc, hf]
        | some old => simp [hc, hf]
  · intro h
    have hc : nameConflict doc.profiles cand.id n = false :=
      (nameConflict_eq_false_iff doc.profiles cand.id n).mpr h
    simp only [upsertProfile, hn, hb, Bool.false_eq_true, if_false, hc, ite_false]
    cases hid : cand.id with
    | none => exact ⟨_, rfl⟩
    | some i =>
      cases hf : doc.profiles.find? (fun p => p.id == i) with
      | none => simp [hf]
      | some old => simp [hf]

/-- C1 witness: with `"Living Room"` stored under `"existing-id"`, creating
`"LIVING ROOM"` under a fresh id is rejected with the conflict error. -/
theorem upsert_name_conflict_iff_witness :
    upsertProfile
        { schemaVersion := 1, apiKey := none,
          profiles := [{ id := "existing-id", name := "Living Room" }] }
        { id := some "new-id", name := some "LIVING ROOM" } "t" none "f"
      = .error (.conflictError
          ("A profile named " ++ squote "LIVING ROOM" ++ " already exists")) := by
  exact ((upsert_name_conflict_iff
      { schemaVersion := 1, apiKey := none,
        profiles := [{ id := "existing-id", name := "Living Room" }] }
      { id := some "new-id", name := some "LIVING ROOM" } "t" none "f"
      "LIVING ROOM" rfl (by decide)).1).mpr
    ⟨{ id := "existing-id", name := "Living Room" }, by decide, by decide, by decide⟩

/-- C3: a candidate whose name is missing or blank is rejected with the
validation error, and the store state — in-memory document and persisted
blob alike — is left unchanged. -/
theorem upsert_missing_name_rejected (s : StoreState) (cand : ProfileInput)
    (now : String) (mby : Option String) (freshId : String)
    (h : nameBlank cand.name = true) :
    storeUpsertProfile s cand now mby freshId =
      (s, .error (.validationError "Profile must have a name")) := by
  unfold storeUpsertProfile
  cases hn : cand.name with
  | none => simp [upsertProfile, hn]
  | some n =>
    rw [hn] at h
    simp only [nameBlank] at h
    simp [upsertProfile, hn, h]

/-- C3 witness: a candidate carrying only a system prompt is rejected and the
freshly initialized store is unchanged. -/
theorem upsert_missing_name_rejected_witness :
    storeUpsertProfile (initStore none) { systemPrompt := some "No name provided" }
        "t" none "f"
      = (initStore none, .error (.validationError "Profile must have a name")) :=
  upsert_missing_name_rejected (initStore none)
    { systemPrompt := some "No name provided" } "t" none "f" rfl

/-- C5: delete-profile never fails: when no profile carries the id the state
(document and persisted blob) is unchanged and the warning flag is set; when
one does, exactly the profiles with that id are removed (all others keep
their order), the result is persisted, and no warning is emitted.  Afterwards
no profile with the id remains. -/
theorem delete_profile_spec (s : StoreState) (id : String) :
    (s.doc.profiles.any (fun p => p.id == id) = false →
      storeDeleteProfile s id = (s, true)) ∧
    (s.doc.profiles.any (fun p => p.id == id) = true →
      storeDeleteProfile s id =
        ({ doc := { s.doc with profiles := (s.doc.profiles.filter (fun p => p.id != id)) },
           saved := some { s.doc with
             profiles := (s.doc.profiles.filter (fun p => p.id != id)) } },
         false)) ∧
    (∀ p ∈ (storeDeleteProfile s id).1.doc.profiles, p.id ≠ id) := by
  refine ⟨fun h => ?_, fun h => ?_, ?_⟩
  · simp [storeDeleteProfile, deleteProfile, h]
  · simp [storeDeleteProfile, deleteProfile, h, persist]
  · intro p hp
    by_cases h : s.doc.profiles.any (fun p => p.id == id)
    · simp only [storeDeleteProfile, deleteProfile, h, if_true, persist] at hp
      have := (List.mem_filter.mp hp).2
      simpa using this
    · rw [Bool.not_eq_true] at h
      simp only [storeDeleteProfile, deleteProfile, h, Bool.false_eq_true,
        if_false, ite_false] at hp
      have := (List.any_eq_false.mp h) p hp
      simpa using this

/-- C5 witness: deleting an absent id leaves a two-profile store unchanged and
warns; deleting a present id removes exactly that profile and persists. -/
theorem delete_profile_spec_witness :
    storeDeleteProfile
        { doc := { schemaVersion := 1, apiKey := none,
                   profiles := [{ id := "p1", name := "Profile to Delete" },
                                { id := "keep-id", name := "Profile to Keep" }] },
          saved := none } "non-existent"
      = ({ doc := { schemaVersion := 1, apiKey := none,
                    profiles := [{ id := "p1", name := "Profile to Delete" },
                                 { id := "keep-id", name := "Profile to Keep" }] },
           saved := none }, true) ∧
    storeDeleteProfile
        { doc := { schemaVersion := 1, apiKey := none,
                   profiles := [{ id := "p1", name := "Profile to Delete" },
                                { id := "keep-id", name := "Profile to Keep" }] },
          saved := none } "p1"
      = ({ doc := { schemaVersion := 1, apiKey := none,
                    profiles := [{ id := "keep-id", name := "Profile to Keep" }] },
           saved := some { schemaVersion := 1, apiKey := none,
                           profiles := [{ id := "keep-id",
                                          name := "Profile to Keep" }] } },
         false) := by
  constructor
  · exact (delete_profile_spec
      { doc := { schemaVersion := 1, apiKey := none,
                 profiles := [{ id := "p1", name := "Profile to Delete" },
                              { id := "keep-id", name := "Profile to Keep" }] },
        saved := none } "non-existent").1 (by decide)
  · exact (delete_profile_spec
      { doc := { schemaVersion := 1, apiKey := none,
                 profiles := [{ id := "p1", name := "Profile to Delete" },
                              { id := "keep-id", name := "Profile to Keep" }] },
        saved := none } "p1").2.1 (by decide)

/-- C6: set-key stores the empty string as `none` and any non-empty string
exactly as supplied, leaves the profile list untouched, and persists the new
document synchronously before returning. -/
theorem set_api_key_spec (s : StoreState) (key : String) :
    (storeSetApiKey s key).1.saved = some (storeSetApiKey s key).1.doc ∧
    (key = "" → (storeSetApiKey s key).1.doc.apiKey = none) ∧
    (key ≠ "" → (storeSetApiKey s key).1.doc.apiKey = some key) ∧
    (storeSetApiKey s key).1.doc.profiles = s.doc.profiles := by
  by_cases h : key = ""
  · simp [storeSetApiKey, setApiKey, persist, h]
  · have h2 : (key == "") = false := beq_eq_false_iff_ne.mpr h
    simp [storeSetApiKey, setApiKey, persist, h, h2]

/-- C6 witness: clearing via the empty string yields a `none` key, a non-empty
key is stored verbatim, and both persist. -/
theorem set_api_key_spec_witness :
    (storeSetApiKey (initStore none) "").1.doc.apiKey = none ∧
    (storeSetApiKey (initStore none) "AIza_test_key_12345").1.doc.apiKey
      = some "AIza_test_key_12345" ∧
    (storeSetApiKey (initStore none) "").1.saved
      = some (storeSetApiKey (initStore none) "").1.doc := by
  refine ⟨(set_api_key_spec (initStore none) "").2.1 rfl,
    (set_api_key_spec (initStore none) "AIza_test_key_12345").2.2.1 (by decide),
    (set_api_key_spec (initStore none) "").1⟩

/-- C7: the availability check returns `false` exactly when some profile whose
id differs from the excluded one (any profile, when no id is excluded) has a
case-folded-equal name; it is a pure read of the document. -/
theorem check_profile_name_spec (doc : ConfigDocument) (name : String)
    (excludeId : Option String) :
    checkProfileName doc name excludeId = false ↔
      ∃ p ∈ doc.profiles, caseFold p.name = caseFold name ∧ excludeId ≠ some p.id := by
  rw [← nameConflict_iff doc.profiles excludeId name]
  simp [checkProfileName]

/-- C10: a non-empty key that does not match the expected provider-key start
is still stored exactly as supplied and persisted; the operation succeeds and
the warning flag is set. -/
theorem set_api_key_invalid_warns (s : StoreState) (key : String)
    (hne : key ≠ "") (hbad : keyLooksValid key = false) :
    storeSetApiKey s key =
      ({ doc := { s.doc with apiKey := some key },
         saved := some { s.doc with apiKey := some key } }, true) := by
  have h2 : (key == "") = false := beq_eq_false_iff_ne.mpr hne
  simp [storeSetApiKey, setApiKey, persist, h2, hbad]

/-- C10 witness: the key `"invalid_key"` (wrong leading characters) is stored
verbatim with the warning flag set. -/
theorem set_api_key_invalid_warns_witness :
    storeSetApiKey (initStore none) "invalid_key" =
      ({ doc := { schemaVersion := 1, apiKey := some "invalid_key", profiles := [] },
         saved := some { schemaVersion := 1, apiKey := some "invalid_key",
                         profiles := [] } }, true) :=
  set_api_key_invalid_warns (initStore none) "invalid_key" (by decide) (by decide)

/-- C2: creating a profile (candidate without id, valid non-conflicting name)
with a fresh generated id appends the finalized profile to the document; the
finalized profile carries the fresh id — unused by every existing profile —
and the clock value as `lastModified`, and is returned. -/
theorem upsert_create_assigns_identity (doc : ConfigDocument) (cand : ProfileInput)
    (now : String) (mby : Option String) (freshId : String) (n : String)
    (hid : cand.id = none) (hn : cand.name = some n) (hb : isBlank n = false)
    (hc : nameConflict doc.profiles none n = false)
    (hfresh : ∀ p ∈ doc.profiles, p.id ≠ freshId) :
    upsertProfile doc cand now mby freshId =
      .ok ({ doc with profiles := doc.profiles ++ [newProfile freshId cand n now mby] },
           newProfile freshId cand n now mby) ∧
    (newProfile freshId cand n now mby).id = freshId ∧
    (newProfile freshId cand n now mby).lastModified = some now ∧
    ∀ p ∈ doc.profiles, p.id ≠ (newProfile freshId cand n now mby).id := by
  refine ⟨?_, rfl, rfl, ?_⟩
  · simp [upsertProfile, hn, hb, hid, hc]
  · intro p hp
    simpa [newProfile] using hfresh p hp

/-- C2 witness: creating `"Kitchen"` in the empty store under the fresh id
`"u1"` appends it with the clock value as `lastModified` and returns it. -/
theorem upsert_create_assigns_identity_witness :
    upsertProfile { schemaVersion := 1, apiKey := none, profiles := [] }
        { name := some "Kitchen" } "2025-01-01T00:00:00" none "u1"
      = .ok ({ schemaVersion := 1, apiKey := none,
               profiles := [{ id := "u1", name := "Kitchen",
                              lastModified := some "2025-01-01T00:00:00" }] },
             { id := "u1", name := "Kitchen",
               lastModified := some "2025-01-01T00:00:00" }) := by
  exact (upsert_create_assigns_identity
    { schemaVersion := 1, apiKey := none, profiles := [] }
    { name := some "Kitchen" } "2025-01-01T00:00:00" none "u1" "Kitchen"
    rfl rfl (by decide) (by decide) (fun p hp => nomatch hp)).1

/-- C4: a successful upsert whose candidate id matches a stored profile
rewrites that profile in place: the list keeps its length, every slot holding
a profile with a different id is unchanged, every slot holding the candidate
id now holds the merged profile, and the merged profile keeps the stored id
(which equals the candidate id), takes the caller-supplied fields, and is
stamped with the clock value. -/
theorem upsert_update_in_place (doc : ConfigDocument) (cand : ProfileInput)
    (now : String) (mby : Option String) (freshId : String) (n i : String)
    (old : Profile)
    (hn : cand.name = some n) (hb : isBlank n = false) (hid : cand.id = some i)
    (hf : doc.profiles.find? (fun p => p.id == i) = some old)
    (hc : nameConflict doc.profiles (some i) n = false) :
    upsertProfile doc cand now mby freshId =
      .ok ({ doc with profiles := (doc.profiles.map
              (fun p => if p.id == i then mergeProfile old cand n now mby else p)) },
           mergeProfile old cand n now mby) ∧
    (mergeProfile old cand n now mby).id = old.id ∧ old.id = i ∧
    (mergeProfile old cand n now mby).name = n ∧
    (mergeProfile old cand n now mby).lastModified = some now ∧
    (doc.profiles.map
        (fun p => if p.id == i then mergeProfile old cand n now mby else p)).length
      = doc.profiles.length ∧
    (∀ k : Nat, ∀ p : Profile, doc.profiles[k]? = some p → (p.id == i) = false →
      (doc.profiles.map
          (fun p => if p.id == i then mergeProfile old cand n now mby else p))[k]?
        = some p) ∧
    (∀ k : Nat, ∀ p : Profile, doc.profiles[k]? = some p → (p.id == i) = true →
      (doc.profiles.map
          (fun p => if p.id == i then mergeProfile old cand n now mby else p))[k]?
        = some (mergeProfile old cand n now mby)) := by
  refine ⟨?_, rfl, ?_, rfl, rfl, List.length_map doc.profiles _, ?_, ?_⟩
  · simp [upsertProfile, hn, hb, hid, hc, hf]
  · simpa using List.find?_some hf
  · intro k p hk hpi
    have hne : p.id ≠ i := by simpa using hpi
    rw [List.getElem?_map, hk]
    simp [hne]
  · intro k p hk hpi
    have heq : p.id = i := by simpa using hpi
    rw [List.getElem?_map, hk]
    simp [heq]

/-- C4 witness: updating the only profile's system prompt by id keeps the
list at one element with the same id and replaces the prompt. -/
theorem upsert_update_in_place_witness :
    upsertProfile
        { schemaVersion := 1, apiKey := none,
          profiles := [{ id := "pid-1", name := "Living Room",
                         systemPrompt := some "Old prompt" }] }
        { id := some "pid-1", name := some "Living Room",
          systemPrompt := some "New prompt" }
        "2025-01-02T00:00:00" none "f"
      = .ok ({ schemaVersion := 1, apiKey := none,
               profiles := [{ id := "pid-1", name := "Living Room",
                              systemPrompt := some "New prompt",
                              lastModified := some "2025-01-02T00:00:00" }] },
             { id := "pid-1", name := "Living Room",
               systemPrompt := some "New prompt",
               lastModified := some "2025-01-02T00:00:00" }) := by
  exact (upsert_update_in_place
    { schemaVersion := 1, apiKey := none,
      profiles := [{ id := "pid-1", name := "Living Room",
                     systemPrompt := some "Old prompt" }] }
    { id := some "pid-1", name := some "Living Room",
      systemPrompt := some "New prompt" }
    "2025-01-02T00:00:00" none "f" "Living Room" "pid-1"
    { id := "pid-1", name := "Living Room", systemPrompt := some "Old prompt" }
    rfl (by decide) rfl (by decide) (by decide)).1

theorem netUpsert_eq (doc : ConfigDocument) (cand : ProfileInput) (now : String)
    (mby : Option String) (fid : String) :
    netUpsert { apiKey := doc.apiKey, profiles := doc.profiles } cand now mby fid =
      (match upsertProfile doc cand now mby fid with
       | .error _ => { apiKey := doc.apiKey, profiles := doc.profiles }
       | .ok r => { apiKey := r.1.apiKey, profiles := r.1.profiles }) := by
  cases hn : cand.name with
  | none => simp [netUpsert, upsertProfile, hn]
  | some n =>
    by_cases hb : isBlank n
    · simp [netUpsert, upsertProfile, hn, hb]
    · by_cases hc : nameConflict doc.profiles cand.id n
      · simp [netUpsert, upsertProfile, hn, hb, hc]
      · cases hid : cand.id with
        | none =>
          rw [hid] at hc
          simp [netUpsert, upsertProfile, hn, hb, hc, hid]
        | some i =>
          rw [hid] at hc
          cases hf : doc.profiles.find? (fun p => p.id == i) with
          | none => simp [netUpsert, upsertProfile, hn, hb, hc, hid, hf]
          | some old => simp [netUpsert, upsertProfile, hn, hb, hc, hid, hf]

theorem getConfig_applyOp (s : StoreState) (op : Op) :
    getConfig (applyOp s op) = netOp (getConfig s) op := by
  cases op with
  | setKey k =>
    by_cases h : (k == "") = true
    · simp [applyOp, storeSetApiKey, setApiKey, netOp, netSetKey, getConfig, persist, h]
    · simp [applyOp, storeSetApiKey, setApiKey, netOp, netSetKey, getConfig, persist, h]
  | upsert cand now mby fid =>
    have he := netUpsert_eq s.doc cand now mby fid
    simp only [applyOp, storeUpsertProfile, netOp, getConfig]
    rw [he]
    cases hu : upsertProfile s.doc cand now mby fid with
    | error e => rfl
    | ok r => rfl
  | delete i =>
    by_cases h : s.doc.profiles.any (fun p => p.id == i) = true
    · simp [applyOp, storeDeleteProfile, deleteProfile, netOp, netDelete, getConfig,
        persist, h]
    · rw [Bool.not_eq_true] at h
      simp only [applyOp, storeDeleteProfile, deleteProfile, netOp, netDelete,
        getConfig, h, Bool.false_eq_true, if_false, ite_false]
      refine congrArg _ ?_
      refine (List.filter_eq_self.mpr ?_).symm
      intro p hp
      simpa using List.any_eq_false.mp h p hp

theorem getConfig_applyOps (ops : List Op) (s : StoreState) :
    getConfig (applyOps ops s) = netEffect ops (getConfig s) := by
  induction ops generalizing s with
  | nil => rfl
  | cons op rest ih =>
    show getConfig (applyOps rest (applyOp s op)) = netEffect rest (netOp (getConfig s) op)
    rw [ih, getConfig_applyOp]

/-- C8: after any finite sequence of set-key, upsert-profile and
delete-profile calls applied to a store initialized with no persisted data,
get-config returns exactly the net effect of the sequence on the initial
configuration, which has a `none` key and no profiles. -/
theorem round_trip_net_effect (ops : List Op) :
    getConfig (applyOps ops (initStore none)) =
      netEffect ops { apiKey := none, profiles := [] } := by
  rw [getConfig_applyOps]
  rfl

theorem applyOp_schemaVersion (s : StoreState) (op : Op) :
    (applyOp s op).doc.schemaVersion = s.doc.schemaVersion := by
  cases op with
  | setKey k =>
    by_cases h : (k == "") = true
    · simp [applyOp, storeSetApiKey, setApiKey, persist, h]
    · simp [applyOp, storeSetApiKey, setApiKey, persist, h]
  | upsert cand now mby fid =>
    simp only [applyOp, storeUpsertProfile]
    cases hn : cand.name with
    | none => simp [upsertProfile, hn]
    | some n =>
      by_cases hb : isBlank n = true
      · simp [upsertProfile, hn, hb]
      · by_cases hc : nameConflict s.doc.profiles cand.id n = true
        · simp [upsertProfile, hn, hb, hc]
        · cases hid : cand.id with
          | none =>
            rw [hid] at hc
            simp [upsertProfile, hn, hb, hc, hid, persist]
          | some i =>
            rw [hid] at hc
            cases hf : s.doc.profiles.find? (fun p => p.id == i) with
            | none => simp [upsertProfile, hn, hb, hc, hid, hf, persist]
            | some old => simp [upsertProfile, hn, hb, hc, hid, hf, persist]
  | delete i =>
    by_cases h : s.doc.profiles.any (fun p => p.id == i) = true
    · simp [applyOp, storeDeleteProfile, deleteProfile, persist, h]
    · simp [applyOp, storeDeleteProfile, deleteProfile, persist, h]

theorem applyOps_schemaVersion (ops : List Op) (s : StoreState) :
    (applyOps ops s).doc.schemaVersion = s.doc.schemaVersion := by
  induction ops generalizing s with
  | nil => rfl
  | cons op rest ih =>
    show (applyOps rest (applyOp s op)).doc.schemaVersion = s.doc.schemaVersion
    rw [ih, applyOp_schemaVersion]

/-- C9: initialization from any blob whose version does not exceed the
current one yields an in-memory document at the current schema version, every
operation sequence preserves that version, and when the blob was older the
migrated form (the in-order forward migrations applied up to current) is
persisted immediately. -/
theorem schema_version_invariant (blob : Option ConfigDocument) (ops : List Op)
    (h : versionOk blob = true) :
    (initStore blob).doc.schemaVersion = CURRENT_SCHEMA_VERSION ∧
    (applyOps ops (initStore blob)).doc.schemaVersion = CURRENT_SCHEMA_VERSION ∧
    (needsMigration blob = true →
      (initStore blob).saved = some ((initStore blob).doc) ∧
      (initStore blob).doc = migrate (blob.getD defaultDocument)) := by
  have h1 : (initStore blob).doc.schemaVersion = CURRENT_SCHEMA_VERSION := by
    cases blob with
    | none => rfl
    | some d =>
      simp only [versionOk, decide_eq_true_eq] at h
      by_cases hlt : d.schemaVersion < CURRENT_SCHEMA_VERSION
      · simp [initStore, hlt, migrate]
      · have he : d.schemaVersion = CURRENT_SCHEMA_VERSION := by omega
        simp [initStore, hlt, he]
  refine ⟨h1, ?_, ?_⟩
  · rw [applyOps_schemaVersion]
    exact h1
  · intro hm
    cases blob with
    | none => simp [needsMigration] at hm
    | some d =>
      simp only [needsMigration, decide_eq_true_eq] at hm
      constructor
      · simp [initStore, hm]
      · simp [initStore, hm, Option.getD]

/-- C9 witness: a blob at schema version 0 is accepted, upgraded to the
current version in memory, and the migrated form is persisted at once. -/
theorem schema_version_invariant_witness :
    versionOk (some { schemaVersion := 0, apiKey := some "k", profiles := [] }) = true ∧
    (initStore
        (some { schemaVersion := 0, apiKey := some "k", profiles := [] })).doc.schemaVersion
      = CURRENT_SCHEMA_VERSION ∧
    (initStore (some { schemaVersion := 0, apiKey := some "k", profiles := [] })).saved
      = some ((initStore
          (some { schemaVersion := 0, apiKey := some "k", profiles := [] })).doc) := by
  refine ⟨by decide, ?_, ?_⟩
  · exact (schema_version_invariant
      (some { schemaVersion := 0, apiKey := some "k", profiles := [] }) []
      (by decide)).1
  · exact ((schema_version_invariant
      (some { schemaVersion := 0, apiKey := some "k", profiles := [] }) []
      (by decide)).2.2 (by decide)).1

end HaLiveConfig
